import Mathlib

/-!
# A shallow embedding of `bridge.go` (package qml)

This file embeds the cross-runtime value bridge of `bridge.go` in Lean 4:
the value-fold registry (`wrapGoValue`, `hookGoValueTypeNew`,
`hookGoValueDestroyed`, `ensureEngine`), the change notifier (`Changed`),
the reentrant event-loop lock (`Lock`/`Unlock`), the field-write conversion
(`convertAndSet`), and a small transition system for the call dispatcher
(`gui`/`hookIdleTimer`).

Modelling conventions:
* Go pointers become natural-number identifiers into explicit association
  lists carried in a `BridgeState` record; mutation through a pointer becomes
  functional update of the record.
* Go `panic` becomes `Except.error` with the panic message (dynamic parts of
  messages such as type names or `%p` addresses are dropped, since nothing
  here depends on them).
* Go map lookups/deletes become association-list operations; Go's
  `len`-before/after idiom for detecting a missing key becomes an explicit
  presence test, which is equivalent because Go map keys are unique.
* The reflective properties of a Go value that `wrapGoValue` inspects
  (whether it is an unhashable struct, whether it is a pointer to a pointer)
  are carried as fields of the `GoValue` record, along with a numeric
  identity standing for the interface value used as map key.
-/

namespace QmlBridge

/-- Identifier of a `valueFold` record (stands for the Go `*valueFold`). -/
abbrev FoldId := Nat

/-- Identifier of an engine (stands for the C `engine.addr` pointer). -/
abbrev EngineAddr := Nat

/-- A Go interface value as seen by `wrapGoValue`: its identity (map key)
plus the two reflective facts the function branches on. -/
structure GoValue where
  id : Nat
  /-- `reflect.ValueOf(v).Kind() == reflect.Struct && !hashable(v)` -/
  unhashableStruct : Bool
  /-- `Kind() == reflect.Ptr && Elem().Kind() == reflect.Ptr` -/
  ptrptr : Bool
deriving DecidableEq, Repr

/-- The `valueOwner` tags of `bridge.go` (`cppOwner`, `jsOwner`). -/
inductive valueOwner where
  | cppOwner
  | jsOwner
deriving DecidableEq, Repr

/-- The `valueFold` record of `bridge.go`. `engine` is `none` until the
fold is resolved; `initCalls` counts invocations of the deferred
initializer `fold.init` (0 or 1 in well-behaved runs); `hasInit` records
whether the fold was created by a registered type and so carries an
initializer. -/
structure Fold where
  engine : Option EngineAddr
  gvalue : GoValue
  cvalue : Nat
  owner : valueOwner
  prev : Option FoldId
  next : Option FoldId
  initCalls : Nat
  hasInit : Bool
deriving DecidableEq, Repr

/-- The `Engine` record: its native address, the `values` map from managed
value identity to chain root, and the `destroyed` flag. -/
structure Engine where
  addr : EngineAddr
  values : List (GoValue × FoldId)
  destroyed : Bool
deriving DecidableEq, Repr

/-- Association-list lookup (first match), standing for Go map indexing. -/
def alookup {α β : Type} [DecidableEq α] : List (α × β) → α → Option β
  | [], _ => none
  | (k, v) :: rest, a => if k = a then some v else alookup rest a

/-- Association-list update-or-add, standing for Go map assignment. -/
def aupdate {α β : Type} [DecidableEq α] : List (α × β) → α → β → List (α × β)
  | [], a, b => [(a, b)]
  | (k, v) :: rest, a, b =>
    if k = a then (a, b) :: rest else (k, v) :: aupdate rest a b

/-- Association-list delete (first match), standing for Go map `delete`. -/
def aerase {α β : Type} [DecidableEq α] : List (α × β) → α → List (α × β)
  | [], _ => []
  | (k, v) :: rest, a => if k = a then rest else (k, v) :: aerase rest a

/-- Delete the first occurrence of an element from a list. -/
def lerase {α : Type} [DecidableEq α] : List α → α → List α
  | [], _ => []
  | x :: rest, a => if x = a then rest else x :: lerase rest a

/-- Global state of the bridge: the `engines` registry, the fold arena
(live `valueFold` records), the `typeNew` pending set, and counters that
produce fresh fold identities and fresh native handles. -/
structure BridgeState where
  engines : List (EngineAddr × Engine)
  folds : List (FoldId × Fold)
  typeNew : List FoldId
  nextFold : FoldId
  nextCValue : Nat
deriving DecidableEq, Repr

def BridgeState.getEngine (st : BridgeState) (e : EngineAddr) : Option Engine :=
  alookup st.engines e

def BridgeState.getFold (st : BridgeState) (f : FoldId) : Option Fold :=
  alookup st.folds f

def BridgeState.setFold (st : BridgeState) (f : FoldId) (fd : Fold) : BridgeState :=
  { st with folds := aupdate st.folds f fd }

def BridgeState.eraseFold (st : BridgeState) (f : FoldId) : BridgeState :=
  { st with folds := aerase st.folds f }

/-- Replace an engine's `values` map in the registry. -/
def BridgeState.setEngineValues (st : BridgeState) (e : EngineAddr)
    (vs : List (GoValue × FoldId)) : BridgeState :=
  match st.getEngine e with
  | none => st
  | some eng => { st with engines := aupdate st.engines e { eng with values := vs } }

/-- Modelled from the spec: "created when host code instantiates a native
engine". The engine-construction code of the repository is not in
`bridge.go`; the spec says an engine enters the global registry with an
empty fold chain and a clear `destroyed` flag. -/
def newEngine (st : BridgeState) (e : EngineAddr) : BridgeState :=
  { st with engines := aupdate st.engines e { addr := e, values := [], destroyed := false } }

/-- Modelled from the spec: "marked destroyed when the native side signals
teardown". Sets the engine's `destroyed` flag. -/
def markEngineDestroyed (st : BridgeState) (e : EngineAddr) : BridgeState :=
  match st.getEngine e with
  | none => st
  | some eng => { st with engines := aupdate st.engines e { eng with destroyed := true } }

/-- `wrapGoValue(engine, gvalue, owner)`: the translation of
`bridge.go` lines 197-248. `painting` stands for
`tref.Ref() == atomic.LoadUintptr(&guiPaintRef)`, i.e. the caller is the
thread currently running a paint callback. On success returns the native
handle (`cvalue`) and the new state. The two `.error "model: ..."` cases
have no Go counterpart: they discharge lookups that Go performs through
pointers that cannot dangle. -/
def wrapGoValue (st : BridgeState) (eaddr : EngineAddr) (gvalue : GoValue)
    (owner : valueOwner) (painting : Bool) : Except String (Nat × BridgeState) :=
  if gvalue.unhashableStruct then
    .error "cannot hand an unhashable struct value to QML logic; use its address instead"
  else if gvalue.ptrptr then
    .error "cannot hand pointer of pointer to QML logic; use a simple pointer instead"
  else
    match st.getEngine eaddr with
    | none => .error "model: unknown engine"
    | some engine =>
      match alookup engine.values gvalue with
      | some prevId =>
        match st.getFold prevId with
        | none => .error "model: dangling fold id"
        | some prev =>
          if prev.owner = owner ∨ owner ≠ valueOwner.cppOwner ∨ painting = true then
            .ok (prev.cvalue, st)
          else if painting = true then
            .error "cannot allocate new objects while painting"
          else
            -- prev != nil: `prev.next = fold; fold.prev = prev`
            let fid := st.nextFold
            let cv := st.nextCValue
            let fold : Fold :=
              { engine := some eaddr, gvalue := gvalue, cvalue := cv, owner := owner,
                prev := some prevId, next := none, initCalls := 0, hasInit := false }
            let st1 := st.setFold prevId { prev with next := some fid }
            let st2 := st1.setFold fid fold
            .ok (cv, { st2 with nextFold := fid + 1, nextCValue := cv + 1 })
      | none =>
        if painting = true then
          .error "cannot allocate new objects while painting"
        else
          -- prev == nil: `engine.values[gvalue] = fold`
          let fid := st.nextFold
          let cv := st.nextCValue
          let fold : Fold :=
            { engine := some eaddr, gvalue := gvalue, cvalue := cv, owner := owner,
              prev := none, next := none, initCalls := 0, hasInit := false }
          let st1 := st.setFold fid fold
          let st2 := st1.setEngineValues eaddr (aupdate engine.values gvalue fid)
          .ok (cv, { st2 with nextFold := fid + 1, nextCValue := cv + 1 })

/-- `hookGoValueTypeNew(cvalue, specp)`: translation of `bridge.go` lines
268-282. The native side supplies the already-created handle `cvalue`;
`gvalue` stands for the fresh `reflect.New(...)` pointer value. The fold
starts with no engine, `jsOwner` ownership, a pending initializer, and is
inserted into the `typeNew` pending set. Returns the new fold's identity. -/
def hookGoValueTypeNew (st : BridgeState) (cvalue : Nat) (gvalue : GoValue) :
    FoldId × BridgeState :=
  let fid := st.nextFold
  let fold : Fold :=
    { engine := none, gvalue := gvalue, cvalue := cvalue, owner := valueOwner.jsOwner,
      prev := none, next := none, initCalls := 0, hasInit := true }
  (fid, { st with folds := aupdate st.folds fid fold,
                  typeNew := fid :: st.typeNew,
                  nextFold := fid + 1 })

/-- Walk `next` links from a fold to the tail of its chain
(`for prev.next != nil { prev = prev.next }`), with explicit fuel.
Returns `none` on a dangling identifier or when fuel runs out (a cyclic
chain, on which the Go loop would not terminate). -/
def chainTail (st : BridgeState) : Nat → FoldId → Option FoldId
  | 0, _ => none
  | fuel + 1, f =>
    match st.getFold f with
    | none => none
    | some fd =>
      match fd.next with
      | none => some f
      | some n => chainTail st fuel n

/-- Collect the fold identities on the chain starting at a fold, following
`next` links, with explicit fuel; `none` on a dangling id or exhausted fuel. -/
def chainIds (st : BridgeState) : Nat → FoldId → Option (List FoldId)
  | 0, _ => none
  | fuel + 1, f =>
    match st.getFold f with
    | none => none
    | some fd =>
      match fd.next with
      | none => some [f]
      | some n => (chainIds st fuel n).map (fun l => f :: l)

/-- `ensureEngine(enginep, foldp)`: translation of `bridge.go` lines
523-558. `enginep = none` stands for a nil engine pointer. If the fold
already has an engine this is a no-op. Otherwise the engine is looked up in
the global registry (fatal if absent), the fold is linked at the tail of
the alias chain for its value (or becomes the chain root), it is removed
from the `typeNew` pending set (fatal if absent), and its deferred
initializer runs once (`initCalls` is incremented). -/
def ensureEngine (st : BridgeState) (enginep : Option EngineAddr) (fid : FoldId) :
    Except String BridgeState :=
  match st.getFold fid with
  | none => .error "model: dangling fold id"
  | some fold =>
    if fold.engine.isSome then
      .ok st
    else
      match enginep with
      | none => .error "accessing value without an engine pointer; who created the value?"
      | some ep =>
        match st.getEngine ep with
        | none => .error "unknown engine pointer; who created the engine?"
        | some engine =>
          -- fold.engine = engine
          let st1 := st.setFold fid { fold with engine := some ep }
          let link : Except String BridgeState :=
            match alookup engine.values fold.gvalue with
            | some rootId =>
              -- walk to the tail, then `prev.next = fold; fold.prev = prev`
              match chainTail st1 st1.folds.length rootId with
              | none => .error "model: broken chain"
              | some tailId =>
                match st1.getFold tailId with
                | none => .error "model: dangling fold id"
                | some tl =>
                  let st2 := st1.setFold tailId { tl with next := some fid }
                  .ok (st2.setFold fid
                    { fold with engine := some ep, prev := some tailId })
            | none =>
              .ok (st1.setEngineValues ep (aupdate engine.values fold.gvalue fid))
          match link with
          | .error e => .error e
          | .ok st3 =>
            -- delete(typeNew, fold), fatal if it was not present
            if fid ∈ st3.typeNew then
              let st4 := { st3 with typeNew := lerase st3.typeNew fid }
              -- fold.init.Call([...gvalue, obj])
              match st4.getFold fid with
              | none => .error "model: dangling fold id"
              | some fd =>
                .ok (st4.setFold fid { fd with initCalls := fd.initCalls + 1 })
            else
              .error "value had no engine, but was not created by a registered type; who created the value?"

/-- `hookGoValueDestroyed(enginep, foldp)`: translation of `bridge.go`
lines 285-324. The destroyed fold is erased from the arena (in Go it
becomes garbage); neighbours' links are repaired exactly as in the source's
three-way switch; a fold with no engine must be in the pending set; when
the last value of an engine whose `destroyed` flag is set goes away, the
engine leaves the global registry. -/
def hookGoValueDestroyed (st : BridgeState) (fid : FoldId) : Except String BridgeState :=
  match st.getFold fid with
  | none => .error "model: dangling fold id"
  | some fold =>
    match fold.engine with
    | none =>
      if fid ∈ st.typeNew then
        .ok { (st.eraseFold fid) with typeNew := lerase st.typeNew fid }
      else
        .error "destroying value without an associated engine; who created the value?"
    | some ep =>
      match st.getEngine ep with
      | none =>
        .error "engine was released from global list while its values were still alive"
      | some engine =>
        match fold.prev with
        | some pid =>
          -- case fold.prev != nil
          match st.getFold pid with
          | none => .error "model: dangling fold id"
          | some pf =>
            let st1 := st.setFold pid { pf with next := fold.next }
            let st2 :=
              match fold.next with
              | none => st1
              | some nid =>
                match st1.getFold nid with
                | none => st1
                | some nf => st1.setFold nid { nf with prev := fold.prev }
            .ok (st2.eraseFold fid)
        | none =>
          match fold.next with
          | some nid =>
            -- case fold.next != nil (fold.prev == nil here)
            match st.getFold nid with
            | none => .error "model: dangling fold id"
            | some nf =>
              let st1 := st.setFold nid { nf with prev := none }
              let st2 := st1.setEngineValues ep (aupdate engine.values fold.gvalue nid)
              .ok (st2.eraseFold fid)
          | none =>
            -- default: sole fold for its value
            if (alookup engine.values fold.gvalue).isSome then
              let vs := aerase engine.values fold.gvalue
              let st1 := st.setEngineValues ep vs
              let st2 :=
                if engine.destroyed ∧ vs = [] then
                  { st1 with engines := aerase st1.engines ep }
                else st1
              .ok (st2.eraseFold fid)
            else
              .error "destroying value that knows about the engine, but the engine doesn't know about the value; who cleared the engine?"

/-- A native property-changed notification: `C.goValueActivate(cvalue,
tinfo, offset)` carries the fold's native handle and the field's byte
offset. -/
structure Signal where
  cvalue : Nat
  offset : Nat
deriving DecidableEq, Repr

/-- The signals emitted while walking one alias chain
(`for fold != nil { C.goValueActivate(...); fold = fold.next }`).
A `none` root (no entry in `engine.values`) emits nothing. -/
def chainSignals (st : BridgeState) (fuel : Nat) (root : Option FoldId)
    (offset : Nat) : Option (List Signal) :=
  match root with
  | none => some []
  | some r =>
    (chainIds st fuel r).map
      (List.filterMap (fun f => (st.getFold f).map (fun fd => Signal.mk fd.cvalue offset)))

/-- The body of `Changed`'s gui closure, `bridge.go` lines 132-150:
for each engine, walk the alias chain of `value` emitting immediate
signals, and for each pending fold whose `gvalue` is `value` register a
deferred signal (`defer C.goValueActivate(...)`). Returns
`(immediate, deferredRegistrations)`, both in program order; the deferred
signals actually fire after the loop in reverse registration order. -/
def changedLoop (st : BridgeState) (value : GoValue) (offset : Nat) :
    List (EngineAddr × Engine) → Option (List Signal × List Signal)
  | [] => some ([], [])
  | (_, eng) :: rest =>
    match chainSignals st st.folds.length (alookup eng.values value) offset with
    | none => none
    | some imm =>
      let defs := st.typeNew.filterMap (fun fid =>
        match st.getFold fid with
        | none => none
        | some fd => if fd.gvalue = value then some (Signal.mk fd.cvalue offset) else none)
      match changedLoop st value offset rest with
      | none => none
      | some (i, d) => some (imm ++ i, defs ++ d)

/-- `Changed(value, fieldAddr)`: translation of `bridge.go` lines 115-151.
`valueAddr`/`valueSize` describe the extent of the (fully dereferenced)
value, `fieldAddr`/`fieldSize` the field; the offset subtraction is the
64-bit unsigned arithmetic Go performs on `uintptr`. Returns the emitted
signals in order: all immediate chain signals, then the deferred ones in
reverse registration order. -/
def Changed (st : BridgeState) (value : GoValue)
    (valueAddr valueSize fieldAddr fieldSize : Nat) : Except String (List Signal) :=
  if fieldSize = 0 then
    .error "cannot report changes on zero-sized fields"
  else
    let offset := (fieldAddr + 2 ^ 64 - valueAddr) % 2 ^ 64
    if offset < valueSize then
      match changedLoop st value offset st.engines with
      | none => .error "model: broken chain"
      | some (imm, defs) => .ok (imm ++ defs.reverse)
    else
      .error "provided field is not a member of the given value"

/-- `Lock`: the closure `guiLock++` run on the event-loop thread
(`bridge.go` line 87). -/
def Lock (guiLock : Nat) : Nat := guiLock + 1

/-- `Unlock`: the closure of `bridge.go` lines 93-98; fatal when the lock
count is already zero, otherwise `guiLock--`. -/
def Unlock (guiLock : Nat) : Except String Nat :=
  if guiLock = 0 then .error "qml.Unlock called without lock being held"
  else .ok (guiLock - 1)

/-- A well-formed alias-chain segment: the listed folds are live, all wrap
value `v`, all belong to engine `e`, their `prev`/`next` links thread them
in order, the first fold's `prev` is the given predecessor, and the last
fold's `next` is nil. A whole chain is a segment whose predecessor is
`none` (the root case). -/
def chainSeg (st : BridgeState) (e : EngineAddr) (v : GoValue) :
    Option FoldId → List FoldId → Prop
  | _, [] => True
  | pr, f :: rest =>
    ∃ fd : Fold, st.getFold f = some fd ∧ fd.gvalue = v ∧ fd.engine = some e ∧
      fd.prev = pr ∧ fd.next = rest.head? ∧ chainSeg st e v (some f) rest

end QmlBridge

namespace QmlConvert

/-- A fragment of Go's reflective type universe: the types that can reach
`convertAndSet` through a field write in this model. `listPT` is
`*qml.List` (the `listType` global of `bridge.go`). -/
inductive GoType where
  | intT
  | int64T
  | stringT
  | boolT
  | sliceT (elem : GoType)
  | listPT
deriving DecidableEq, Repr

/-- Rendering of a type name as Go's `%s` on a `reflect.Type` prints it,
used in the conversion failure message. -/
def GoType.render : GoType → String
  | .intT => "int"
  | .int64T => "int64"
  | .stringT => "string"
  | .boolT => "bool"
  | .sliceT e => "[]" ++ e.render
  | .listPT => "*qml.List"

/-- A scalar Go value carrying its dynamic type. -/
inductive GoScalar where
  | sInt (t : GoType) (n : Int)
  | sString (s : String)
  | sBool (b : Bool)
deriving DecidableEq, Repr

/-- A Go value as it reaches `convertAndSet`: a scalar, a typed slice, or
a decoded `*qml.List` adapter holding its elements. -/
inductive GoVal where
  | scalar (s : GoScalar)
  | vSlice (elem : GoType) (xs : List GoScalar)
  | vList (xs : List GoScalar)
deriving DecidableEq, Repr

def GoScalar.type : GoScalar → GoType
  | .sInt t _ => t
  | .sString _ => .stringT
  | .sBool _ => .boolT

/-- `reflect.Value.Type()` on this fragment. -/
def GoVal.type : GoVal → GoType
  | .scalar s => s.type
  | .vSlice e _ => .sliceT e
  | .vList _ => .listPT

/-- `reflect.Value.Convert` on scalars of this fragment (`none` models the
conversion panic): integer kinds convert among each other, every scalar
converts to its own type, everything else fails. -/
def convScalar : GoScalar → GoType → Option GoScalar
  | .sInt _ n, .intT => some (.sInt .intT n)
  | .sInt _ n, .int64T => some (.sInt .int64T n)
  | .sString s, .stringT => some (.sString s)
  | .sBool b, .boolT => some (.sBool b)
  | _, _ => none

/-- `reflect.Value.Convert` on whole values of this fragment. -/
def convVal : GoVal → GoType → Option GoVal
  | .scalar s, t => (convScalar s t).map .scalar
  | v, t => if v.type = t then some v else none

/-- A registered setter method: the declared parameter type
(`setMethod.Type().In(0)`) and whether the user-supplied body panics on a
given argument. -/
structure SetterModel where
  paramType : GoType
  panics : GoVal → Bool

/-- What a field write did on success. -/
inductive WriteOutcome where
  | fieldSet (v : GoVal)
  | setterCalled (v : GoVal)
deriving DecidableEq, Repr

/-- The element loop of the `*qml.List`-to-slice conversion
(`for i, elem := range list.data { from.Index(i).Set(...Convert(elemType)) }`):
convert every element to the slice's element type, failing if any single
conversion panics. -/
def convList (elemType : GoType) : List GoScalar → Option (List GoScalar)
  | [] => some []
  | x :: xs =>
    match convScalar x elemType, convList elemType xs with
    | some y, some ys => some (y :: ys)
    | _, _ => none

/-- The conversion stage of `convertAndSet` (`bridge.go` lines 423-432):
the special `*qml.List`-to-slice element-wise conversion, else a plain
`Convert` when the types differ, else the value unchanged. `none` models
a conversion panic (caught by the deferred `recover`). -/
def convertStage (toType : GoType) (fromv : GoVal) : Option GoVal :=
  match fromv, toType with
  | .vList xs, .sliceT elemType =>
    -- from = reflect.MakeSlice(...); element-wise Convert into it
    (convList elemType xs).map (GoVal.vSlice elemType)
  | _, _ =>
    if toType ≠ fromv.type then convVal fromv toType else some fromv

/-- The failure message the deferred `recover` of `convertAndSet` produces
for every panic it catches. -/
def convertFailMsg (toType fromType : GoType) : String :=
  "cannot use " ++ fromType.render ++ " as a " ++ toType.render

/-- `convertAndSet(to, from, setMethod)`: translation of `bridge.go` lines
410-438. `toType0` is `to.Type()`, used when no setter exists. The
deferred `recover` turns every panic raised after `toType`/`fromType` are
computed — element conversion, whole-value conversion, and the setter call
itself — into the single message `cannot use <from> as a <to>`, modelled
as the `Except.error` result. -/
def convertAndSet (toType0 : GoType) (fromv : GoVal) (setM : Option SetterModel) :
    Except String WriteOutcome :=
  let toType := match setM with
    | some m => m.paramType
    | none => toType0
  let fromType := fromv.type
  let failMsg := convertFailMsg toType fromType
  match convertStage toType fromv with
  | none => .error failMsg
  | some v =>
    match setM with
    | some m => if m.panics v then .error failMsg else .ok (.setterCalled v)
    | none => .ok (.fieldSet v)

end QmlConvert

namespace QmlDispatch

/-- Program counter of a goroutine calling `gui(f)` from a thread that is
neither the event-loop thread nor the render thread (`bridge.go` lines
52-70, marshalled path). -/
inductive CallerPC where
  | start
  | sendF
  | waitDone
  | returned
deriving DecidableEq, Repr

/-- Program counter of the event-loop thread: in the native loop, or at
one of the points of `hookIdleTimer` (`bridge.go` lines 158-174, with
`guiLock = 0`). -/
inductive LoopPC where
  | native
  | selecting
  | running
  | sendDone
  | decrement
deriving DecidableEq, Repr

/-- Joint state of the two threads, the `hookWaiting` counter, and the
number of times `f` has executed on the event-loop thread. -/
structure DispState where
  caller : CallerPC
  loop : LoopPC
  hookWaiting : Nat
  execs : Nat
deriving DecidableEq, Repr

def dispInit : DispState :=
  { caller := .start, loop := .native, hookWaiting := 0, execs := 0 }

/-- One interleaving step of the two threads. Channel operations on the
unbuffered `guiFunc`/`guiDone` are rendezvous: they fire only when the
peer is blocked at the matching operation. The `native → selecting`
transition is Modelled from the spec: the native loop invokes the idle
hook once per loop iteration while `hookWaiting > 0` (the loop-side timer
code is not part of `bridge.go`; this follows the doc comment of
`hookIdleTimer` and spec section 4.1). -/
def dispStep (s : DispState) : List DispState :=
  (if s.caller = .start then
    -- atomic.AddInt32(&hookWaiting, 1); idleTimerStart on the 0 -> 1 transition
    [{ s with caller := .sendF, hookWaiting := s.hookWaiting + 1 }] else []) ++
  (if s.loop = .native ∧ s.hookWaiting > 0 then
    [{ s with loop := .selecting }] else []) ++
  (if s.loop = .selecting ∧ s.caller = .sendF then
    -- case f = <-guiFunc rendezvous with guiFunc <- f
    [{ s with loop := .running, caller := .waitDone }] else []) ++
  (if s.loop = .selecting ∧ s.caller ≠ .sendF then
    -- select default with guiLock == 0: return to the native loop
    [{ s with loop := .native }] else []) ++
  (if s.loop = .running then
    -- f() on the event-loop thread
    [{ s with loop := .sendDone, execs := s.execs + 1 }] else []) ++
  (if s.loop = .sendDone ∧ s.caller = .waitDone then
    -- guiDone <- struct{}{} rendezvous with <-guiDone; gui returns
    [{ s with loop := .decrement, caller := .returned }] else []) ++
  (if s.loop = .decrement then
    -- atomic.AddInt32(&hookWaiting, -1); loop back to the select
    [{ s with loop := .selecting, hookWaiting := s.hookWaiting - 1 }] else [])

/-- Iterated breadth-first closure of the reachable state space. -/
def dispReach : Nat → List DispState
  | 0 => [dispInit]
  | n + 1 =>
    let prev := dispReach n
    (prev ++ prev.flatMap dispStep).dedup

/-- Reachability of a dispatcher state from the initial state. -/
inductive DispReachable : DispState → Prop where
  | init : DispReachable dispInit
  | step {s t : DispState} : DispReachable s → t ∈ dispStep s → DispReachable t

/-- The branch `gui` takes: inline when the calling thread is the
event-loop thread (`guiLoopRef`) or the thread currently running a paint
callback (`guiPaintRef`), marshalled otherwise (`bridge.go` lines 53-58). -/
inductive GuiPath where
  | inline
  | marshalled
deriving DecidableEq, Repr

def guiPath (ref loopRef paintRef : Nat) : GuiPath :=
  if ref = loopRef ∨ ref = paintRef then .inline else .marshalled

end QmlDispatch

namespace QmlBridge

section AssocLemmas

variable {α β : Type} [DecidableEq α]

@[simp] theorem alookup_aupdate_self (l : List (α × β)) (a : α) (b : β) :
    alookup (aupdate l a b) a = some b := by
  induction l with
  | nil => simp [aupdate, alookup]
  | cons hd tl ih =>
    by_cases h : hd.1 = a
    · simp [aupdate, alookup, h]
    · simpa [aupdate, alookup, h] using ih

theorem alookup_aupdate_ne (l : List (α × β)) {a c : α} (b : β) (h : c ≠ a) :
    alookup (aupdate l a b) c = alookup l c := by
  induction l with
  | nil => simp [aupdate, alookup, Ne.symm h]
  | cons hd tl ih =>
    by_cases h1 : hd.1 = a
    · subst h1
      simp [aupdate, alookup, Ne.symm h, h]
    · by_cases h2 : hd.1 = c
      · simp [aupdate, alookup, h1, h2, h]
      · simpa [aupdate, alookup, h1, h2] using ih

theorem length_le_length_aupdate (l : List (α × β)) (a : α) (b : β) :
    l.length ≤ (aupdate l a b).length := by
  induction l with
  | nil => simp [aupdate]
  | cons hd tl ih =>
    by_cases h : hd.1 = a
    · simp [aupdate, h]
    · simpa [aupdate, h, Nat.succ_le_succ_iff] using ih

theorem not_mem_lerase {l : List α} {a : α} (h : l.Nodup) : a ∉ lerase l a := by
  induction l with
  | nil => simp [lerase]
  | cons hd tl ih =>
    rcases List.nodup_cons.mp h with ⟨hhd, htl⟩
    by_cases h1 : hd = a
    · subst h1
      simpa [lerase] using hhd
    · simp only [lerase, if_neg h1, List.mem_cons]
      rintro (rfl | hmem)
      · exact h1 rfl
      · exact ih htl hmem

end AssocLemmas

section StateLemmas

@[simp] theorem getFold_setFold_self (st : BridgeState) (f : FoldId) (fd : Fold) :
    (st.setFold f fd).getFold f = some fd := by
  simp [BridgeState.setFold, BridgeState.getFold]

theorem getFold_setFold_ne (st : BridgeState) {f g : FoldId} (fd : Fold) (h : g ≠ f) :
    (st.setFold f fd).getFold g = st.getFold g := by
  simp [BridgeState.setFold, BridgeState.getFold, alookup_aupdate_ne _ _ h]

@[simp] theorem getFold_setEngineValues (st : BridgeState) (e : EngineAddr)
    (vs : List (GoValue × FoldId)) (f : FoldId) :
    (st.setEngineValues e vs).getFold f = st.getFold f := by
  cases h : st.getEngine e <;> simp [BridgeState.setEngineValues, h, BridgeState.getFold]

@[simp] theorem getEngine_setFold (st : BridgeState) (f : FoldId) (fd : Fold)
    (e : EngineAddr) : (st.setFold f fd).getEngine e = st.getEngine e := by
  simp [BridgeState.setFold, BridgeState.getEngine]

@[simp] theorem typeNew_setFold (st : BridgeState) (f : FoldId) (fd : Fold) :
    (st.setFold f fd).typeNew = st.typeNew := by
  simp [BridgeState.setFold]

@[simp] theorem typeNew_setEngineValues (st : BridgeState) (e : EngineAddr)
    (vs : List (GoValue × FoldId)) :
    (st.setEngineValues e vs).typeNew = st.typeNew := by
  cases h : st.getEngine e <;> simp [BridgeState.setEngineValues, h]

@[simp] theorem engines_setFold (st : BridgeState) (f : FoldId) (fd : Fold) :
    (st.setFold f fd).engines = st.engines := by
  simp [BridgeState.setFold]

end StateLemmas

end QmlBridge

namespace QmlBridge

/-- C7: `Lock`/`Unlock` maintain a reentrant lock count. After
`Lock(); Lock(); Unlock()` the count is `1`, still positive (the loop
stays frozen); the matching fourth call `Unlock()` takes it to `0`; any
`Unlock` at count `0` — such as a fifth call — aborts fatally, and since
the panic fires before the decrement the count is left unchanged. -/
theorem lock_unlock_reentrant :
    Unlock (Lock (Lock 0)) = .ok 1 ∧ 0 < 1 ∧
    Unlock 1 = .ok 0 ∧
    (∀ n : Nat, Unlock n = .error "qml.Unlock called without lock being held" ↔ n = 0) := by
  refine ⟨by rfl, by decide, by rfl, ?_⟩
  intro n
  cases n with
  | zero => simp [Unlock]
  | succ m => simp [Unlock]

/-- C6: the three fatal cases of `wrapGoValue`, each of which produces no
fold: an unhashable aggregate (struct) value, a pointer to a pointer, and
the need to allocate a fresh native handle (no existing fold to reuse)
while a paint callback is running. -/
theorem wrap_fatal_cases (st : BridgeState) (ea : EngineAddr) (v : GoValue)
    (owner : valueOwner) (painting : Bool) :
    (v.unhashableStruct = true →
      wrapGoValue st ea v owner painting =
        .error "cannot hand an unhashable struct value to QML logic; use its address instead") ∧
    (v.unhashableStruct = false → v.ptrptr = true →
      wrapGoValue st ea v owner painting =
        .error "cannot hand pointer of pointer to QML logic; use a simple pointer instead") ∧
    (∀ engine : Engine, v.unhashableStruct = false → v.ptrptr = false →
      st.getEngine ea = some engine → alookup engine.values v = none → painting = true →
      wrapGoValue st ea v owner painting =
        .error "cannot allocate new objects while painting") := by
  refine ⟨?_, ?_, ?_⟩
  · intro h
    simp [wrapGoValue, h]
  · intro h1 h2
    simp [wrapGoValue, h1, h2]
  · intro engine h1 h2 hE hL hp
    simp [wrapGoValue, h1, h2, hE, hL, hp]

end QmlBridge


namespace QmlBridge

/-- C1: when a fold for the value already exists in the engine's value
map, `wrapGoValue` hands back the existing fold's native handle with the
state untouched (no new fold, no new handle) if and only if the existing
ownership matches the request, or the request is not `cppOwner`, or the
caller is the render thread (`painting`); in every other case it
allocates a fold carrying a fresh native handle and links it after the
existing one. -/
theorem wrap_reuse_iff (st : BridgeState) (ea : EngineAddr) (v : GoValue)
    (owner : valueOwner) (painting : Bool) (engine : Engine) (pid : FoldId) (prev : Fold)
    (hH : v.unhashableStruct = false) (hPP : v.ptrptr = false)
    (hE : st.getEngine ea = some engine)
    (hL : alookup engine.values v = some pid)
    (hF : st.getFold pid = some prev)
    (hfresh : st.getFold st.nextFold = none) :
    (wrapGoValue st ea v owner painting = .ok (prev.cvalue, st) ↔
      (prev.owner = owner ∨ owner ≠ valueOwner.cppOwner ∨ painting = true)) ∧
    (¬(prev.owner = owner ∨ owner ≠ valueOwner.cppOwner ∨ painting = true) →
      ∃ st2 : BridgeState,
        wrapGoValue st ea v owner painting = .ok (st.nextCValue, st2) ∧
        st2.getFold st.nextFold =
          some { engine := some ea, gvalue := v, cvalue := st.nextCValue, owner := owner,
                 prev := some pid, next := none, initCalls := 0, hasInit := false } ∧
        st2.getFold pid = some { prev with next := some st.nextFold } ∧
        st2.nextFold = st.nextFold + 1 ∧ st2.nextCValue = st.nextCValue + 1) := by
  have hpidne : pid ≠ st.nextFold := by
    intro h
    rw [h, hfresh] at hF
    exact Option.noConfusion hF
  have hcompute : ¬(prev.owner = owner ∨ owner ≠ valueOwner.cppOwner ∨ painting = true) →
      wrapGoValue st ea v owner painting =
        .ok (st.nextCValue,
          { (st.setFold pid { prev with next := some st.nextFold }).setFold st.nextFold
              { engine := some ea, gvalue := v, cvalue := st.nextCValue, owner := owner,
                prev := some pid, next := none, initCalls := 0, hasInit := false } with
            nextFold := st.nextFold + 1, nextCValue := st.nextCValue + 1 }) := by
    intro hc
    push_neg at hc
    obtain ⟨h1, h2, h3⟩ := hc
    have hp : painting = false := by
      cases painting
      · rfl
      · exact absurd rfl h3
    subst hp
    subst h2
    simp [wrapGoValue, hH, hPP, hE, hL, hF, h1]
  constructor
  · constructor
    · intro hw
      by_contra hc
      rw [hcompute hc] at hw
      injection hw with hw1
      have h2 : _ = st := congrArg Prod.snd hw1
      have h3 := congrArg BridgeState.nextFold h2
      simp at h3
    · intro hc
      simp [wrapGoValue, hH, hPP, hE, hL, hF, hc]
  · intro hc
    refine ⟨_, hcompute hc, ?_, ?_, by rfl, by rfl⟩
    · simp [BridgeState.getFold, BridgeState.setFold]
    · show ((st.setFold pid { prev with next := some st.nextFold }).setFold st.nextFold
          _).getFold pid = _
      rw [getFold_setFold_ne _ _ hpidne]
      exact getFold_setFold_self _ _ _

end QmlBridge


namespace QmlBridge

/-- C1 witness: a concrete engine (address 100) with one `jsOwner` fold
(id 0, handle 0) for the value `⟨7, false, false⟩`. A `jsOwner` request
reuses handle 0 and leaves the state alone; a `cppOwner` request fails
all three reuse conditions and allocates the fresh handle 1, linked after
the existing fold. -/
theorem wrap_reuse_iff_witness :
    (wrapGoValue
        (BridgeState.mk
          [(100, Engine.mk 100 [(GoValue.mk 7 false false, 0)] false)]
          [(0, Fold.mk (some 100) (GoValue.mk 7 false false) 0 valueOwner.jsOwner
              none none 0 false)]
          [] 1 1)
        100 (GoValue.mk 7 false false) valueOwner.jsOwner false =
      .ok (0,
        BridgeState.mk
          [(100, Engine.mk 100 [(GoValue.mk 7 false false, 0)] false)]
          [(0, Fold.mk (some 100) (GoValue.mk 7 false false) 0 valueOwner.jsOwner
              none none 0 false)]
          [] 1 1)) ∧
    ∃ st2 : BridgeState,
      wrapGoValue
          (BridgeState.mk
            [(100, Engine.mk 100 [(GoValue.mk 7 false false, 0)] false)]
            [(0, Fold.mk (some 100) (GoValue.mk 7 false false) 0 valueOwner.jsOwner
                none none 0 false)]
            [] 1 1)
          100 (GoValue.mk 7 false false) valueOwner.cppOwner false =
        .ok (1, st2) ∧
      st2.getFold 1 =
        some (Fold.mk (some 100) (GoValue.mk 7 false false) 1 valueOwner.cppOwner
          (some 0) none 0 false) ∧
      st2.getFold 0 =
        some (Fold.mk (some 100) (GoValue.mk 7 false false) 0 valueOwner.jsOwner
          none (some 1) 0 false) ∧
      st2.nextFold = 2 ∧ st2.nextCValue = 2 := by
  constructor
  · exact (wrap_reuse_iff
      (BridgeState.mk
        [(100, Engine.mk 100 [(GoValue.mk 7 false false, 0)] false)]
        [(0, Fold.mk (some 100) (GoValue.mk 7 false false) 0 valueOwner.jsOwner
            none none 0 false)]
        [] 1 1)
      100 (GoValue.mk 7 false false) valueOwner.jsOwner false
      (Engine.mk 100 [(GoValue.mk 7 false false, 0)] false) 0
      (Fold.mk (some 100) (GoValue.mk 7 false false) 0 valueOwner.jsOwner none none 0 false)
      rfl rfl rfl rfl rfl rfl).1.mpr (Or.inl rfl)
  · exact (wrap_reuse_iff
      (BridgeState.mk
        [(100, Engine.mk 100 [(GoValue.mk 7 false false, 0)] false)]
        [(0, Fold.mk (some 100) (GoValue.mk 7 false false) 0 valueOwner.jsOwner
            none none 0 false)]
        [] 1 1)
      100 (GoValue.mk 7 false false) valueOwner.cppOwner false
      (Engine.mk 100 [(GoValue.mk 7 false false, 0)] false) 0
      (Fold.mk (some 100) (GoValue.mk 7 false false) 0 valueOwner.jsOwner none none 0 false)
      rfl rfl rfl rfl rfl rfl).2 (by simp)

end QmlBridge

namespace QmlBridge

/-- C6 witness: concrete evaluations of the three fatal cases of
`wrapGoValue` — an unhashable struct value, a pointer-to-pointer value,
and a fresh allocation requested while painting. -/
theorem wrap_fatal_cases_witness :
    (wrapGoValue (BridgeState.mk [] [] [] 0 0) 100 (GoValue.mk 1 true false)
        valueOwner.jsOwner false =
      .error "cannot hand an unhashable struct value to QML logic; use its address instead") ∧
    (wrapGoValue (BridgeState.mk [] [] [] 0 0) 100 (GoValue.mk 2 false true)
        valueOwner.jsOwner false =
      .error "cannot hand pointer of pointer to QML logic; use a simple pointer instead") ∧
    (wrapGoValue (BridgeState.mk [(100, Engine.mk 100 [] false)] [] [] 0 0) 100
        (GoValue.mk 3 false false) valueOwner.cppOwner true =
      .error "cannot allocate new objects while painting") := by
  refine ⟨?_, ?_, ?_⟩
  · exact (wrap_fatal_cases (BridgeState.mk [] [] [] 0 0) 100 (GoValue.mk 1 true false)
      valueOwner.jsOwner false).1 rfl
  · exact (wrap_fatal_cases (BridgeState.mk [] [] [] 0 0) 100 (GoValue.mk 2 false true)
      valueOwner.jsOwner false).2.1 rfl rfl
  · exact (wrap_fatal_cases (BridgeState.mk [(100, Engine.mk 100 [] false)] [] [] 0 0) 100
      (GoValue.mk 3 false false) valueOwner.cppOwner true).2.2
      (Engine.mk 100 [] false) rfl rfl rfl rfl rfl

end QmlBridge

namespace QmlBridge

/-- C2: REFUTATION of chain integrity as stated. `wrapGoValue` links a new
alias with `prev.next = fold` where `prev` is the chain ROOT from
`engine.values`, without walking to the chain's tail (contrast
`ensureEngine`, which does walk). Concrete run: wrap a value as `jsOwner`,
then twice as `cppOwner` (each time the root's ownership mismatches a
native-owned request, forcing an allocation). The third wrap overwrites
the root's `next` link, orphaning the second wrap's fold: the final state
has three live folds for the value, but the walk from the chain root
visits only `[0, 2]`; fold `1` is live with `prev = some 0`, yet the
root's `next` is `some 2`, so fold 1's `prev` no longer points to its
predecessor and fold 1 is never visited. -/
theorem wrap_chain_orphan :
    wrapGoValue (newEngine (BridgeState.mk [] [] [] 0 0) 100) 100
        (GoValue.mk 7 false false) valueOwner.jsOwner false =
      .ok (0, BridgeState.mk
        [(100, Engine.mk 100 [(GoValue.mk 7 false false, 0)] false)]
        [(0, Fold.mk (some 100) (GoValue.mk 7 false false) 0 valueOwner.jsOwner
            none none 0 false)]
        [] 1 1) ∧
    wrapGoValue
        (BridgeState.mk
          [(100, Engine.mk 100 [(GoValue.mk 7 false false, 0)] false)]
          [(0, Fold.mk (some 100) (GoValue.mk 7 false false) 0 valueOwner.jsOwner
              none none 0 false)]
          [] 1 1)
        100 (GoValue.mk 7 false false) valueOwner.cppOwner false =
      .ok (1, BridgeState.mk
        [(100, Engine.mk 100 [(GoValue.mk 7 false false, 0)] false)]
        [(0, Fold.mk (some 100) (GoValue.mk 7 false false) 0 valueOwner.jsOwner
            none (some 1) 0 false),
         (1, Fold.mk (some 100) (GoValue.mk 7 false false) 1 valueOwner.cppOwner
            (some 0) none 0 false)]
        [] 2 2) ∧
    wrapGoValue
        (BridgeState.mk
          [(100, Engine.mk 100 [(GoValue.mk 7 false false, 0)] false)]
          [(0, Fold.mk (some 100) (GoValue.mk 7 false false) 0 valueOwner.jsOwner
              none (some 1) 0 false),
           (1, Fold.mk (some 100) (GoValue.mk 7 false false) 1 valueOwner.cppOwner
              (some 0) none 0 false)]
          [] 2 2)
        100 (GoValue.mk 7 false false) valueOwner.cppOwner false =
      .ok (2, BridgeState.mk
        [(100, Engine.mk 100 [(GoValue.mk 7 false false, 0)] false)]
        [(0, Fold.mk (some 100) (GoValue.mk 7 false false) 0 valueOwner.jsOwner
            none (some 2) 0 false),
         (1, Fold.mk (some 100) (GoValue.mk 7 false false) 1 valueOwner.cppOwner
            (some 0) none 0 false),
         (2, Fold.mk (some 100) (GoValue.mk 7 false false) 2 valueOwner.cppOwner
            (some 0) none 0 false)]
        [] 3 3) ∧
    chainIds
        (BridgeState.mk
          [(100, Engine.mk 100 [(GoValue.mk 7 false false, 0)] false)]
          [(0, Fold.mk (some 100) (GoValue.mk 7 false false) 0 valueOwner.jsOwner
              none (some 2) 0 false),
           (1, Fold.mk (some 100) (GoValue.mk 7 false false) 1 valueOwner.cppOwner
              (some 0) none 0 false),
           (2, Fold.mk (some 100) (GoValue.mk 7 false false) 2 valueOwner.cppOwner
              (some 0) none 0 false)]
          [] 3 3)
        3 0 = some [0, 2] := by
  refine ⟨?_, ?_, ?_, ?_⟩ <;> rfl

end QmlBridge

namespace QmlConvert

/-- C8: assigning a decoded `*qml.List` to a fixed-element-type slice
target converts each element individually, and the resulting slice's
elements are exactly the originals converted element-wise; when an
element does not convert — or any other conversion fails — the single
fatal message `cannot use <source type> as a <target type>` is reported
instead of the internal conversion panic. -/
theorem convert_list_roundtrip :
    (∀ (e : GoType) (xs ys : List GoScalar),
      convList e xs = some ys →
      convertAndSet (GoType.sliceT e) (GoVal.vList xs) none =
        .ok (WriteOutcome.fieldSet (GoVal.vSlice e ys))) ∧
    (∀ (e : GoType) (xs : List GoScalar),
      convList e xs = none →
      convertAndSet (GoType.sliceT e) (GoVal.vList xs) none =
        .error (convertFailMsg (GoType.sliceT e) GoType.listPT)) ∧
    (∀ (toType0 : GoType) (fromv : GoVal) (setM : Option SetterModel) (msg : String),
      convertAndSet toType0 fromv setM = .error msg →
      msg = convertFailMsg
        (match setM with | some m => m.paramType | none => toType0) fromv.type) := by
  refine ⟨?_, ?_, ?_⟩
  · intro e xs ys h
    simp [convertAndSet, convertStage, h]
  · intro e xs h
    simp [convertAndSet, convertStage, h, GoVal.type]
  · intro toType0 fromv setM msg h
    simp only [convertAndSet] at h
    split at h
    · injection h with h1
      exact h1.symm
    · split at h
      · split at h
        · injection h with h1
          exact h1.symm
        · exact absurd h (by simp)
      · exact absurd h (by simp)

/-- C8 witness: the list `[int 5, int 7]` decodes into an `[]int64` target
as the element-wise converted slice; a `[]bool` target fails with the
unified message; the generic error shape is checked on that failure. -/
theorem convert_list_roundtrip_witness :
    (convertAndSet (GoType.sliceT GoType.int64T)
        (GoVal.vList [GoScalar.sInt GoType.intT 5, GoScalar.sInt GoType.intT 7]) none =
      .ok (WriteOutcome.fieldSet (GoVal.vSlice GoType.int64T
        [GoScalar.sInt GoType.int64T 5, GoScalar.sInt GoType.int64T 7]))) ∧
    (convertAndSet (GoType.sliceT GoType.boolT)
        (GoVal.vList [GoScalar.sInt GoType.intT 5]) none =
      .error "cannot use *qml.List as a []bool") ∧
    ("cannot use *qml.List as a []bool" =
      convertFailMsg (GoType.sliceT GoType.boolT)
        (GoVal.vList [GoScalar.sInt GoType.intT 5]).type) := by
  refine ⟨?_, ?_, ?_⟩
  · exact convert_list_roundtrip.1 GoType.int64T
      [GoScalar.sInt GoType.intT 5, GoScalar.sInt GoType.intT 7]
      [GoScalar.sInt GoType.int64T 5, GoScalar.sInt GoType.int64T 7] rfl
  · exact convert_list_roundtrip.2.1 GoType.boolT [GoScalar.sInt GoType.intT 5] rfl
  · exact convert_list_roundtrip.2.2 (GoType.sliceT GoType.boolT)
      (GoVal.vList [GoScalar.sInt GoType.intT 5]) none _
      (convert_list_roundtrip.2.1 GoType.boolT [GoScalar.sInt GoType.intT 5] rfl)

/-- C10: once the conversion target type is determined, every panic in the
rest of the field write is replaced by the unified fatal message — a panic
during conversion, and equally a panic raised inside the user-supplied
setter during the assignment call; no error other than that message can
reach the caller. -/
theorem setter_panic_replaced :
    (∀ (toType0 : GoType) (fromv : GoVal) (setM : Option SetterModel),
      convertStage (match setM with | some m => m.paramType | none => toType0) fromv = none →
      convertAndSet toType0 fromv setM =
        .error (convertFailMsg
          (match setM with | some m => m.paramType | none => toType0) fromv.type)) ∧
    (∀ (toType0 : GoType) (fromv : GoVal) (m : SetterModel) (v : GoVal),
      convertStage m.paramType fromv = some v →
      m.panics v = true →
      convertAndSet toType0 fromv (some m) =
        .error (convertFailMsg m.paramType fromv.type)) ∧
    (∀ (toType0 : GoType) (fromv : GoVal) (setM : Option SetterModel) (msg : String),
      convertAndSet toType0 fromv setM = .error msg →
      msg = convertFailMsg
        (match setM with | some m => m.paramType | none => toType0) fromv.type) := by
  refine ⟨?_, ?_, ?_⟩
  · intro toType0 fromv setM h
    simp only [convertAndSet]
    rw [h]
  · intro toType0 fromv m v hconv hpanic
    simp [convertAndSet, hconv, hpanic]
  · intro toType0 fromv setM msg h
    simp only [convertAndSet] at h
    split at h
    · injection h with h1
      exact h1.symm
    · split at h
      · split at h
        · injection h with h1
          exact h1.symm
        · exact absurd h (by simp)
      · exact absurd h (by simp)

/-- C10 witness: a setter taking `int` whose body always panics; the
assignment call's panic surfaces as `cannot use int as a int`, not as the
original panic. -/
theorem setter_panic_replaced_witness :
    convertAndSet GoType.stringT (GoVal.scalar (GoScalar.sInt GoType.intT 3))
      (some (SetterModel.mk GoType.intT (fun _ => true))) =
      .error "cannot use int as a int" := by
  exact setter_panic_replaced.2.1 GoType.stringT
    (GoVal.scalar (GoScalar.sInt GoType.intT 3))
    (SetterModel.mk GoType.intT (fun _ => true))
    (GoVal.scalar (GoScalar.sInt GoType.intT 3)) rfl rfl

end QmlConvert

namespace QmlDispatch

/-- The breadth-first closure at depth 12 is closed under `dispStep`. -/
theorem dispReach_closed : ∀ s ∈ dispReach 12, ∀ t ∈ dispStep s, t ∈ dispReach 12 := by
  decide

/-- Every reachable dispatcher state lies in the depth-12 closure. -/
theorem reachable_mem_dispReach (s : DispState) (h : DispReachable s) :
    s ∈ dispReach 12 := by
  induction h with
  | init => decide
  | step _ hmem ih => exact dispReach_closed _ ih _ hmem

/-- Safety over the (finite) reachable state space: `f` runs at most once,
a returned caller implies exactly one run, and the only stuck state is the
completed one. -/
theorem disp_safety : ∀ s ∈ dispReach 12,
    s.execs ≤ 1 ∧ (s.caller = CallerPC.returned → s.execs = 1) ∧
    (dispStep s = [] → s.caller = CallerPC.returned ∧ s.execs = 1) := by
  decide

/-- C9: the marshalled path of `gui(f)` — a caller on a thread that is
neither the event-loop thread nor the render thread — executes `f` at most
once (and, in the model, only in the event-loop thread's
`hookIdleTimer` transition); the caller returns only after `f` has
executed exactly once; the system deadlocks in no other configuration
(the unique stuck state is caller-returned with one execution); and `gui`
takes the inline path, running `f` on the calling thread with no
marshalling, exactly when the calling thread's identity equals the
event-loop thread's or the current paint thread's. -/
theorem gui_run_contract (s : DispState) (h : DispReachable s)
    (ref loopRef paintRef : Nat) :
    s.execs ≤ 1 ∧
    (s.caller = CallerPC.returned → s.execs = 1) ∧
    (dispStep s = [] → s.caller = CallerPC.returned ∧ s.execs = 1) ∧
    (guiPath ref loopRef paintRef = GuiPath.inline ↔ (ref = loopRef ∨ ref = paintRef)) := by
  obtain ⟨h1, h2, h3⟩ := disp_safety s (reachable_mem_dispReach s h)
  refine ⟨h1, h2, h3, ?_⟩
  unfold guiPath
  by_cases hc : ref = loopRef ∨ ref = paintRef
  · simp [hc]
  · simp [hc]

/-- C9 witness: the contract instantiated at the initial dispatcher state
and at a caller whose thread is the event-loop thread. -/
theorem gui_run_contract_witness :
    dispInit.execs ≤ 1 ∧
    (dispInit.caller = CallerPC.returned → dispInit.execs = 1) ∧
    (dispStep dispInit = [] → dispInit.caller = CallerPC.returned ∧ dispInit.execs = 1) ∧
    (guiPath 3 3 4 = GuiPath.inline ↔ (3 = 3 ∨ 3 = 4)) :=
  gui_run_contract dispInit DispReachable.init 3 3 4

end QmlDispatch

namespace QmlBridge

section EraseLemmas

variable {α β : Type} [DecidableEq α]

theorem alookup_aerase_ne (l : List (α × β)) {a b : α} (h : a ≠ b) :
    alookup (aerase l b) a = alookup l a := by
  induction l with
  | nil => simp [aerase]
  | cons hd tl ih =>
    by_cases h1 : hd.1 = b
    · simp [aerase, alookup, h1, Ne.symm h]
    · by_cases h2 : hd.1 = a
      · simp [aerase, alookup, h1, h2, h]
      · simpa [aerase, alookup, h1, h2] using ih

theorem mem_keys_of_alookup {l : List (α × β)} {a : α} {c : β}
    (h : alookup l a = some c) : a ∈ l.map Prod.fst := by
  induction l with
  | nil => simp [alookup] at h
  | cons hd tl ih =>
    by_cases h1 : hd.1 = a
    · simp [h1]
    · rw [alookup, if_neg h1] at h
      simpa using Or.inr (ih h)

theorem alookup_aerase_self (l : List (α × β)) (a : α)
    (h : (l.map Prod.fst).Nodup) : alookup (aerase l a) a = none := by
  induction l with
  | nil => simp [aerase, alookup]
  | cons hd tl ih =>
    rw [List.map_cons, List.nodup_cons] at h
    by_cases h1 : hd.1 = a
    · subst h1
      cases hlk : alookup tl hd.1 with
      | none => simp [aerase, hlk]
      | some c => exact absurd (mem_keys_of_alookup hlk) h.1
    · simp only [aerase, if_neg h1, alookup, if_neg (fun hh => h1 hh)]
      exact ih h.2

theorem keys_aupdate_of_mem (l : List (α × β)) {a : α} {c : β} (b : β)
    (h : alookup l a = some c) :
    (aupdate l a b).map Prod.fst = l.map Prod.fst := by
  induction l with
  | nil => simp [alookup] at h
  | cons hd tl ih =>
    by_cases h1 : hd.1 = a
    · simp [aupdate, h1]
    · rw [alookup, if_neg h1] at h
      simpa [aupdate, h1] using ih h

end EraseLemmas

theorem getFold_eraseFold_ne (st : BridgeState) {f g : FoldId} (h : g ≠ f) :
    (st.eraseFold f).getFold g = st.getFold g := by
  simp [BridgeState.eraseFold, BridgeState.getFold, alookup_aerase_ne _ h]

@[simp] theorem engines_eraseFold (st : BridgeState) (f : FoldId) :
    (st.eraseFold f).engines = st.engines := by
  simp [BridgeState.eraseFold]

end QmlBridge



namespace QmlBridge

/-- C5: destruction bookkeeping of `hookGoValueDestroyed`.
(A) Destroying the sole fold of the last remaining value of an engine
whose `destroyed` flag is set removes the engine from the global registry;
(B) destroying a sole fold while the engine still maps other values keeps
the engine registered — together with (C)-(E), which never remove a
registry entry, the engine leaves the registry exactly when its last fold
is destroyed and not before;
(C) destroying a middle fold points its predecessor's `next` past it to
its successor and its successor's `prev` back to its predecessor;
(D) destroying a tail fold clears its predecessor's `next`;
(E) destroying the chain root rewires the engine's value-map root to the
successor and clears the successor's `prev`. -/
theorem destroy_bookkeeping :
    (∀ (st : BridgeState) (fid : FoldId) (fold : Fold) (ep : EngineAddr) (engine : Engine),
      (st.engines.map Prod.fst).Nodup →
      st.getFold fid = some fold → fold.engine = some ep →
      st.getEngine ep = some engine →
      fold.prev = none → fold.next = none →
      engine.values = [(fold.gvalue, fid)] → engine.destroyed = true →
      ∃ st2 : BridgeState, hookGoValueDestroyed st fid = .ok st2 ∧
        st2.getEngine ep = none) ∧
    (∀ (st : BridgeState) (fid : FoldId) (fold : Fold) (ep : EngineAddr) (engine : Engine),
      st.getFold fid = some fold → fold.engine = some ep →
      st.getEngine ep = some engine →
      fold.prev = none → fold.next = none →
      alookup engine.values fold.gvalue = some fid →
      aerase engine.values fold.gvalue ≠ [] →
      ∃ st2 : BridgeState, hookGoValueDestroyed st fid = .ok st2 ∧
        st2.getEngine ep = some { engine with values := aerase engine.values fold.gvalue }) ∧
    (∀ (st : BridgeState) (fid : FoldId) (fold : Fold) (ep : EngineAddr) (engine : Engine)
        (p n : FoldId) (pf nf : Fold),
      st.getFold fid = some fold → fold.engine = some ep →
      st.getEngine ep = some engine →
      fold.prev = some p → fold.next = some n →
      st.getFold p = some pf → st.getFold n = some nf →
      p ≠ n → p ≠ fid → n ≠ fid →
      ∃ st2 : BridgeState, hookGoValueDestroyed st fid = .ok st2 ∧
        st2.getFold p = some { pf with next := some n } ∧
        st2.getFold n = some { nf with prev := some p } ∧
        st2.engines = st.engines) ∧
    (∀ (st : BridgeState) (fid : FoldId) (fold : Fold) (ep : EngineAddr) (engine : Engine)
        (p : FoldId) (pf : Fold),
      st.getFold fid = some fold → fold.engine = some ep →
      st.getEngine ep = some engine →
      fold.prev = some p → fold.next = none →
      st.getFold p = some pf → p ≠ fid →
      ∃ st2 : BridgeState, hookGoValueDestroyed st fid = .ok st2 ∧
        st2.getFold p = some { pf with next := none } ∧
        st2.engines = st.engines) ∧
    (∀ (st : BridgeState) (fid : FoldId) (fold : Fold) (ep : EngineAddr) (engine : Engine)
        (n : FoldId) (nf : Fold),
      st.getFold fid = some fold → fold.engine = some ep →
      st.getEngine ep = some engine →
      fold.prev = none → fold.next = some n →
      st.getFold n = some nf → n ≠ fid →
      ∃ st2 : BridgeState, hookGoValueDestroyed st fid = .ok st2 ∧
        st2.getFold n = some { nf with prev := none } ∧
        st2.getEngine ep =
          some { engine with values := aupdate engine.values fold.gvalue n }) := by
  refine ⟨?_, ?_, ?_, ?_, ?_⟩
  · intro st fid fold ep engine hkeys hF hEng hE hprev hnext hvals hdes
    refine ⟨BridgeState.eraseFold { st with engines := aerase (aupdate st.engines ep { engine with values := [] }) ep } fid, ?_, ?_⟩
    · simp [hookGoValueDestroyed, hF, hEng, hE, hprev, hnext, hvals, hdes, BridgeState.setEngineValues, aerase, alookup]
    · simp only [BridgeState.getEngine, engines_eraseFold]
      rw [alookup_aerase_self]
      rw [keys_aupdate_of_mem st.engines _ hE]
      exact hkeys
  · intro st fid fold ep engine hF hEng hE hprev hnext hlk hne
    refine ⟨BridgeState.eraseFold { st with engines := aupdate st.engines ep { engine with values := aerase engine.values fold.gvalue } } fid, ?_, ?_⟩
    · simp [hookGoValueDestroyed, hF, hEng, hE, hprev, hnext, hlk, hne, BridgeState.setEngineValues]
    · simp [BridgeState.getEngine]
  · intro st fid fold ep engine p n pf nf hF hEng hE hprev hnext hpf hnf hpn hpfid hnfid
    have hnf1 : (st.setFold p { pf with next := some n }).getFold n = some nf := by
      rw [getFold_setFold_ne _ _ (Ne.symm hpn)]
      exact hnf
    refine ⟨BridgeState.eraseFold ((st.setFold p { pf with next := some n }).setFold n { nf with prev := some p }) fid, ?_, ?_, ?_, ?_⟩
    · simp [hookGoValueDestroyed, hF, hEng, hE, hprev, hnext, hpf, hnf1]
    · rw [getFold_eraseFold_ne _ hpfid, getFold_setFold_ne _ _ hpn]
      exact getFold_setFold_self _ _ _
    · rw [getFold_eraseFold_ne _ hnfid]
      exact getFold_setFold_self _ _ _
    · simp
  · intro st fid fold ep engine p pf hF hEng hE hprev hnext hpf hpfid
    refine ⟨BridgeState.eraseFold (st.setFold p { pf with next := none }) fid, ?_, ?_, ?_⟩
    · simp [hookGoValueDestroyed, hF, hEng, hE, hprev, hnext, hpf]
    · rw [getFold_eraseFold_ne _ hpfid]
      exact getFold_setFold_self _ _ _
    · simp
  · intro st fid fold ep engine n nf hF hEng hE hprev hnext hnf hnfid
    have hE1 : (st.setFold n { nf with prev := none }).getEngine ep = some engine := by
      simpa using hE
    refine ⟨BridgeState.eraseFold { st.setFold n { nf with prev := none } with engines := aupdate st.engines ep { engine with values := aupdate engine.values fold.gvalue n } } fid, ?_, ?_, ?_⟩
    · simp [hookGoValueDestroyed, hF, hEng, hE, hprev, hnext, hnf, BridgeState.setEngineValues, hE1]
    · rw [getFold_eraseFold_ne _ hnfid]
      show (st.setFold n { nf with prev := none }).getFold n = _
      exact getFold_setFold_self _ _ _
    · simp [BridgeState.getEngine]

end QmlBridge

namespace QmlBridge

/-- C5 witness: the five destruction scenarios on concrete states — last
fold of a destroyed engine (registry entry removed), sole fold with a
second value still mapped (entry kept), middle fold, tail fold, and chain
root of a two-fold chain. -/
theorem destroy_bookkeeping_witness :
    (∃ st2 : BridgeState,
      hookGoValueDestroyed (BridgeState.mk [(100, Engine.mk 100 [(GoValue.mk 1 false false, 5)] true)] [(5, Fold.mk (some 100) (GoValue.mk 1 false false) 9 valueOwner.jsOwner none none 0 false)] [] 6 1) 5 = .ok st2 ∧
      st2.getEngine 100 = none) ∧
    (∃ st2 : BridgeState,
      hookGoValueDestroyed (BridgeState.mk [(100, Engine.mk 100 [(GoValue.mk 1 false false, 5), (GoValue.mk 2 false false, 6)] true)] [(5, Fold.mk (some 100) (GoValue.mk 1 false false) 9 valueOwner.jsOwner none none 0 false), (6, Fold.mk (some 100) (GoValue.mk 2 false false) 10 valueOwner.jsOwner none none 0 false)] [] 7 1) 5 = .ok st2 ∧
      st2.getEngine 100 = some { Engine.mk 100 [(GoValue.mk 1 false false, 5), (GoValue.mk 2 false false, 6)] true with values := aerase [(GoValue.mk 1 false false, 5), (GoValue.mk 2 false false, 6)] (GoValue.mk 1 false false) }) ∧
    (∃ st2 : BridgeState,
      hookGoValueDestroyed (BridgeState.mk [(100, Engine.mk 100 [(GoValue.mk 1 false false, 1)] false)] [(1, Fold.mk (some 100) (GoValue.mk 1 false false) 11 valueOwner.jsOwner none (some 2) 0 false), (2, Fold.mk (some 100) (GoValue.mk 1 false false) 12 valueOwner.cppOwner (some 1) (some 3) 0 false), (3, Fold.mk (some 100) (GoValue.mk 1 false false) 13 valueOwner.jsOwner (some 2) none 0 false)] [] 4 1) 2 = .ok st2 ∧
      st2.getFold 1 = some { Fold.mk (some 100) (GoValue.mk 1 false false) 11 valueOwner.jsOwner none (some 2) 0 false with next := some 3 } ∧
      st2.getFold 3 = some { Fold.mk (some 100) (GoValue.mk 1 false false) 13 valueOwner.jsOwner (some 2) none 0 false with prev := some 1 } ∧
      st2.engines = [(100, Engine.mk 100 [(GoValue.mk 1 false false, 1)] false)]) ∧
    (∃ st2 : BridgeState,
      hookGoValueDestroyed (BridgeState.mk [(100, Engine.mk 100 [(GoValue.mk 1 false false, 1)] false)] [(1, Fold.mk (some 100) (GoValue.mk 1 false false) 11 valueOwner.jsOwner none (some 2) 0 false), (2, Fold.mk (some 100) (GoValue.mk 1 false false) 12 valueOwner.cppOwner (some 1) none 0 false)] [] 3 1) 2 = .ok st2 ∧
      st2.getFold 1 = some { Fold.mk (some 100) (GoValue.mk 1 false false) 11 valueOwner.jsOwner none (some 2) 0 false with next := none } ∧
      st2.engines = [(100, Engine.mk 100 [(GoValue.mk 1 false false, 1)] false)]) ∧
    (∃ st2 : BridgeState,
      hookGoValueDestroyed (BridgeState.mk [(100, Engine.mk 100 [(GoValue.mk 1 false false, 1)] false)] [(1, Fold.mk (some 100) (GoValue.mk 1 false false) 11 valueOwner.jsOwner none (some 2) 0 false), (2, Fold.mk (some 100) (GoValue.mk 1 false false) 12 valueOwner.cppOwner (some 1) none 0 false)] [] 3 1) 1 = .ok st2 ∧
      st2.getFold 2 = some { Fold.mk (some 100) (GoValue.mk 1 false false) 12 valueOwner.cppOwner (some 1) none 0 false with prev := none } ∧
      st2.getEngine 100 = some { Engine.mk 100 [(GoValue.mk 1 false false, 1)] false with values := aupdate [(GoValue.mk 1 false false, 1)] (GoValue.mk 1 false false) 2 }) := by
  refine ⟨?_, ?_, ?_, ?_, ?_⟩
  · exact destroy_bookkeeping.1 _ 5 (Fold.mk (some 100) (GoValue.mk 1 false false) 9 valueOwner.jsOwner none none 0 false) 100 (Engine.mk 100 [(GoValue.mk 1 false false, 5)] true) (by decide) rfl rfl rfl rfl rfl rfl rfl
  · exact destroy_bookkeeping.2.1 _ 5 (Fold.mk (some 100) (GoValue.mk 1 false false) 9 valueOwner.jsOwner none none 0 false) 100 (Engine.mk 100 [(GoValue.mk 1 false false, 5), (GoValue.mk 2 false false, 6)] true) rfl rfl rfl rfl rfl rfl (by decide)
  · exact destroy_bookkeeping.2.2.1 _ 2 (Fold.mk (some 100) (GoValue.mk 1 false false) 12 valueOwner.cppOwner (some 1) (some 3) 0 false) 100 (Engine.mk 100 [(GoValue.mk 1 false false, 1)] false) 1 3 (Fold.mk (some 100) (GoValue.mk 1 false false) 11 valueOwner.jsOwner none (some 2) 0 false) (Fold.mk (some 100) (GoValue.mk 1 false false) 13 valueOwner.jsOwner (some 2) none 0 false) rfl rfl rfl rfl rfl rfl rfl (by decide) (by decide) (by decide)
  · exact destroy_bookkeeping.2.2.2.1 _ 2 (Fold.mk (some 100) (GoValue.mk 1 false false) 12 valueOwner.cppOwner (some 1) none 0 false) 100 (Engine.mk 100 [(GoValue.mk 1 false false, 1)] false) 1 (Fold.mk (some 100) (GoValue.mk 1 false false) 11 valueOwner.jsOwner none (some 2) 0 false) rfl rfl rfl rfl rfl rfl (by decide)
  · exact destroy_bookkeeping.2.2.2.2 _ 1 (Fold.mk (some 100) (GoValue.mk 1 false false) 11 valueOwner.jsOwner none (some 2) 0 false) 100 (Engine.mk 100 [(GoValue.mk 1 false false, 1)] false) 2 (Fold.mk (some 100) (GoValue.mk 1 false false) 12 valueOwner.cppOwner (some 1) none 0 false) rfl rfl rfl rfl rfl rfl (by decide)

end QmlBridge

namespace QmlBridge

/-- C4: with exactly two live engines each holding a single resolved fold
for value `v`, `Changed` emits the per-engine chain signals first — one
per fold, each carrying the byte offset of the field within the value —
followed, after the whole iteration, by the deferred signals of the
pending (engine-unresolved) folds whose value is `v` (one registration
per engine pass, fired in reverse registration order). In particular,
when no pending fold matches `v`, exactly two signals are emitted. -/
theorem changed_two_engines (st : BridgeState) (v : GoValue)
    (a1 a2 : EngineAddr) (E1 E2 : Engine) (f1 f2 : FoldId) (fd1 fd2 : Fold)
    (valueAddr valueSize fieldAddr fieldSize : Nat) (pend : List Signal)
    (hengines : st.engines = [(a1, E1), (a2, E2)])
    (hl1 : alookup E1.values v = some f1) (hl2 : alookup E2.values v = some f2)
    (hf1 : st.getFold f1 = some fd1) (hf2 : st.getFold f2 = some fd2)
    (hn1 : fd1.next = none) (hn2 : fd2.next = none)
    (hfs : ¬fieldSize = 0)
    (hle : valueAddr ≤ fieldAddr)
    (hlt : fieldAddr - valueAddr < valueSize)
    (hsmall : fieldAddr - valueAddr < 2 ^ 64)
    (hpend : st.typeNew.filterMap (fun fid =>
        match st.getFold fid with
        | none => none
        | some fd =>
          if fd.gvalue = v then some (Signal.mk fd.cvalue (fieldAddr - valueAddr))
          else none) = pend) :
    Changed st v valueAddr valueSize fieldAddr fieldSize =
      .ok ([Signal.mk fd1.cvalue (fieldAddr - valueAddr),
            Signal.mk fd2.cvalue (fieldAddr - valueAddr)] ++ (pend ++ pend).reverse) ∧
    (pend = [] →
      Changed st v valueAddr valueSize fieldAddr fieldSize =
        .ok [Signal.mk fd1.cvalue (fieldAddr - valueAddr),
             Signal.mk fd2.cvalue (fieldAddr - valueAddr)]) := by
  have hoff : (fieldAddr + 2 ^ 64 - valueAddr) % 2 ^ 64 = fieldAddr - valueAddr := by
    have h1 : fieldAddr + 2 ^ 64 - valueAddr = (fieldAddr - valueAddr) + 2 ^ 64 := by omega
    rw [h1, Nat.add_mod_right, Nat.mod_eq_of_lt hsmall]
  obtain ⟨m, hm⟩ : ∃ m, st.folds.length = m + 1 := by
    cases hfold : st.folds with
    | nil =>
      rw [BridgeState.getFold, hfold] at hf1
      simp [alookup] at hf1
    | cons hd tl => exact ⟨tl.length, by simp [hfold]⟩
  have hchain1 : chainSignals st st.folds.length (alookup E1.values v)
      (fieldAddr - valueAddr) = some [Signal.mk fd1.cvalue (fieldAddr - valueAddr)] := by
    rw [hl1, hm]
    simp [chainSignals, chainIds, hf1, hn1]
  have hchain2 : chainSignals st st.folds.length (alookup E2.values v)
      (fieldAddr - valueAddr) = some [Signal.mk fd2.cvalue (fieldAddr - valueAddr)] := by
    rw [hl2, hm]
    simp [chainSignals, chainIds, hf2, hn2]
  have hloop : changedLoop st v (fieldAddr - valueAddr) st.engines =
      some ([Signal.mk fd1.cvalue (fieldAddr - valueAddr),
             Signal.mk fd2.cvalue (fieldAddr - valueAddr)], pend ++ pend) := by
    rw [hengines]
    simp [changedLoop, hchain1, hchain2, hpend]
  have hmain : Changed st v valueAddr valueSize fieldAddr fieldSize =
      .ok ([Signal.mk fd1.cvalue (fieldAddr - valueAddr),
            Signal.mk fd2.cvalue (fieldAddr - valueAddr)] ++ (pend ++ pend).reverse) := by
    simp only [Changed, if_neg hfs, hoff, if_pos hlt, hloop]
  exact ⟨hmain, fun hp => by rw [hmain, hp]; simp⟩

end QmlBridge

namespace QmlBridge

/-- C4 witness: two engines with one resolved fold each (handles 7 and 8)
for the value, plus one pending fold (handle 42) for the same value;
field at byte offset 8 of a 16-byte value. The two immediate signals come
first, the pending fold's deferred signals fire after the iteration. -/
theorem changed_two_engines_witness :
    Changed
        (BridgeState.mk [(1, Engine.mk 1 [(GoValue.mk 3 false false, 0)] false), (2, Engine.mk 2 [(GoValue.mk 3 false false, 10)] false)] [(0, Fold.mk (some 1) (GoValue.mk 3 false false) 7 valueOwner.jsOwner none none 0 false), (10, Fold.mk (some 2) (GoValue.mk 3 false false) 8 valueOwner.jsOwner none none 0 false), (20, Fold.mk none (GoValue.mk 3 false false) 42 valueOwner.jsOwner none none 0 true)] [20] 21 50)
        (GoValue.mk 3 false false) 1000 16 1008 8 =
      .ok ([Signal.mk 7 8, Signal.mk 8 8] ++
        ([Signal.mk 42 8] ++ [Signal.mk 42 8]).reverse) := by
  have h := changed_two_engines
    (BridgeState.mk [(1, Engine.mk 1 [(GoValue.mk 3 false false, 0)] false), (2, Engine.mk 2 [(GoValue.mk 3 false false, 10)] false)] [(0, Fold.mk (some 1) (GoValue.mk 3 false false) 7 valueOwner.jsOwner none none 0 false), (10, Fold.mk (some 2) (GoValue.mk 3 false false) 8 valueOwner.jsOwner none none 0 false), (20, Fold.mk none (GoValue.mk 3 false false) 42 valueOwner.jsOwner none none 0 true)] [20] 21 50)
    (GoValue.mk 3 false false) 1 2
    (Engine.mk 1 [(GoValue.mk 3 false false, 0)] false)
    (Engine.mk 2 [(GoValue.mk 3 false false, 10)] false)
    0 10
    (Fold.mk (some 1) (GoValue.mk 3 false false) 7 valueOwner.jsOwner none none 0 false)
    (Fold.mk (some 2) (GoValue.mk 3 false false) 8 valueOwner.jsOwner none none 0 false)
    1000 16 1008 8 [Signal.mk 42 8]
    rfl rfl rfl rfl rfl rfl rfl (by decide) (by decide) (by decide) (by decide) rfl
  exact h.1

end QmlBridge

namespace QmlBridge

section ChainLemmas

theorem chainSeg_setFold_notmem (st : BridgeState) (e : EngineAddr) (v : GoValue)
    (f : FoldId) (fd : Fold) :
    ∀ (ids : List FoldId) (pr : Option FoldId), chainSeg st e v pr ids → f ∉ ids →
      chainSeg (st.setFold f fd) e v pr ids := by
  intro ids
  induction ids with
  | nil => intro pr _ _; trivial
  | cons g rest ih =>
    intro pr hch hnot
    obtain ⟨gd, hg, hgv, hge, hgp, hgn, htl⟩ := hch
    refine ⟨gd, ?_, hgv, hge, hgp, hgn, ?_⟩
    · rw [getFold_setFold_ne _ _ (fun hh => hnot (by rw [← hh]; exact List.mem_cons_self g rest))]
      exact hg
    · exact ih (some g) htl (fun hh => hnot (List.mem_cons_of_mem g hh))

theorem chainTail_of_chainSeg (st : BridgeState) (e : EngineAddr) (v : GoValue) :
    ∀ (ids : List FoldId) (f : FoldId) (pr : Option FoldId) (fuel : Nat),
      chainSeg st e v pr (f :: ids) → (f :: ids).length ≤ fuel →
      chainTail st fuel f = some ((f :: ids).getLast (List.cons_ne_nil f ids)) := by
  intro ids
  induction ids with
  | nil =>
    intro f pr fuel hch hfuel
    obtain ⟨fd, hg, _, _, _, hn, _⟩ := hch
    obtain ⟨k, rfl⟩ : ∃ k, fuel = k + 1 := by
      cases fuel with
      | zero => simp at hfuel
      | succ k => exact ⟨k, rfl⟩
    simp only [List.head?] at hn
    simp [chainTail, hg, hn]
  | cons g rest ih =>
    intro f pr fuel hch hfuel
    obtain ⟨fd, hg, _, _, _, hn, htl⟩ := hch
    obtain ⟨k, rfl⟩ : ∃ k, fuel = k + 1 := by
      cases fuel with
      | zero => simp at hfuel
      | succ k => exact ⟨k, rfl⟩
    simp only [List.head?] at hn
    rw [List.getLast_cons (List.cons_ne_nil g rest)]
    have hlen : (g :: rest).length ≤ k := by
      simpa [Nat.succ_le_succ_iff] using hfuel
    simp only [chainTail, hg, hn]
    exact ih g (some f) k htl hlen

theorem chainSeg_last_record (st : BridgeState) (e : EngineAddr) (v : GoValue) :
    ∀ (ids : List FoldId) (f : FoldId) (pr : Option FoldId),
      chainSeg st e v pr (f :: ids) →
      ∃ tl : Fold, st.getFold ((f :: ids).getLast (List.cons_ne_nil f ids)) = some tl ∧
        tl.next = none ∧ tl.gvalue = v ∧ tl.engine = some e := by
  intro ids
  induction ids with
  | nil =>
    intro f pr hch
    obtain ⟨fd, hg, hgv, hge, _, hn, _⟩ := hch
    simp only [List.head?] at hn
    exact ⟨fd, by simpa using hg, hn, hgv, hge⟩
  | cons g rest ih =>
    intro f pr hch
    obtain ⟨fd, _, _, _, _, _, htl⟩ := hch
    rw [List.getLast_cons (List.cons_ne_nil g rest)]
    exact ih g (some f) htl

theorem chainSeg_snoc (st st2 : BridgeState) (e : EngineAddr) (v : GoValue)
    (fid : FoldId) (newRec : Fold) :
    ∀ (ids : List FoldId) (f0 : FoldId) (pr : Option FoldId),
      chainSeg st e v pr (f0 :: ids) →
      (f0 :: ids).Nodup →
      fid ∉ f0 :: ids →
      (∀ g ∈ f0 :: ids, g ≠ (f0 :: ids).getLast (List.cons_ne_nil f0 ids) →
        st2.getFold g = st.getFold g) →
      (∀ tl : Fold, st.getFold ((f0 :: ids).getLast (List.cons_ne_nil f0 ids)) = some tl →
        st2.getFold ((f0 :: ids).getLast (List.cons_ne_nil f0 ids)) =
          some { tl with next := some fid }) →
      st2.getFold fid = some newRec →
      newRec.gvalue = v → newRec.engine = some e →
      newRec.prev = some ((f0 :: ids).getLast (List.cons_ne_nil f0 ids)) →
      newRec.next = none →
      chainSeg st2 e v pr ((f0 :: ids) ++ [fid]) := by
  intro ids
  induction ids with
  | nil =>
    intro f0 pr hch _ _ _ htail hnew hgv hen hprev hnext
    obtain ⟨fd, hg, hfgv, hfe, hfp, hfn, _⟩ := hch
    simp only [List.head?] at hfn
    simp only [List.getLast_singleton] at htail hprev
    refine ⟨{ fd with next := some fid }, htail fd hg, hfgv, hfe, hfp, ?_, ?_⟩
    · simp [List.head?]
    · exact ⟨newRec, hnew, hgv, hen, by simpa using hprev, by simpa [List.head?] using hnext, trivial⟩
  | cons g rest ih =>
    intro f0 pr hch hnodup hfid hframe htail hnew hgv hen hprev hnext
    obtain ⟨fd, hg, hfgv, hfe, hfp, hfn, htl⟩ := hch
    simp only [List.head?] at hfn
    have hlast_eq : (f0 :: g :: rest).getLast (List.cons_ne_nil f0 (g :: rest)) =
        (g :: rest).getLast (List.cons_ne_nil g rest) :=
      List.getLast_cons (List.cons_ne_nil g rest)
    have hf0ne : f0 ≠ (g :: rest).getLast (List.cons_ne_nil g rest) := by
      intro hh
      have hmem : f0 ∈ g :: rest := by
        rw [hh]
        exact List.getLast_mem (List.cons_ne_nil g rest)
      exact (List.nodup_cons.mp hnodup).1 hmem
    refine ⟨fd, ?_, hfgv, hfe, hfp, ?_, ?_⟩
    · rw [hframe f0 (List.mem_cons_self f0 (g :: rest)) (hlast_eq ▸ hf0ne)]
      exact hg
    · simp [hfn]
    · exact ih g (some f0) htl (List.nodup_cons.mp hnodup).2
        (fun hh => hfid (List.mem_cons_of_mem f0 hh))
        (fun x hx hne => hframe x (List.mem_cons_of_mem f0 hx) (hlast_eq ▸ hne))
        (fun tl htl2 => hlast_eq ▸ htail tl (hlast_eq ▸ htl2))
        hnew hgv hen (hlast_eq ▸ hprev) hnext

end ChainLemmas

end QmlBridge

namespace QmlBridge

/-- C3: pending resolution. (i) A fold created by registered-type
instantiation (`hookGoValueTypeNew`) enters the pending set immediately,
with no engine and its initializer not yet run; (ii) `ensureEngine` on a
fold whose engine is already set changes nothing; (iii) resolving with a
nil engine pointer is fatal; (iv) resolving against an engine pointer
absent from the global registry is fatal; (v) resolving a fold that is
not in the pending set is fatal; (vi) the first resolve of a pending fold
with no existing alias for its value removes it from the pending set,
roots it in that engine's chain, and runs its deferred initializer once;
(vii) the first resolve when aliases already exist appends the fold after
the existing chain's tail, removes it from the pending set, leaves the
engine registry untouched, and runs the initializer once. -/
theorem pending_resolution :
    (∀ (st : BridgeState) (cv : Nat) (gv : GoValue),
      (hookGoValueTypeNew st cv gv).1 ∈ (hookGoValueTypeNew st cv gv).2.typeNew ∧
      (hookGoValueTypeNew st cv gv).2.getFold (hookGoValueTypeNew st cv gv).1 =
        some (Fold.mk none gv cv valueOwner.jsOwner none none 0 true)) ∧
    (∀ (st : BridgeState) (enginep : Option EngineAddr) (fid : FoldId) (fold : Fold),
      st.getFold fid = some fold → fold.engine.isSome = true →
      ensureEngine st enginep fid = .ok st) ∧
    (∀ (st : BridgeState) (fid : FoldId) (fold : Fold),
      st.getFold fid = some fold → fold.engine = none →
      ensureEngine st none fid =
        .error "accessing value without an engine pointer; who created the value?") ∧
    (∀ (st : BridgeState) (fid : FoldId) (fold : Fold) (ep : EngineAddr),
      st.getFold fid = some fold → fold.engine = none → st.getEngine ep = none →
      ensureEngine st (some ep) fid =
        .error "unknown engine pointer; who created the engine?") ∧
    (∀ (st : BridgeState) (fid : FoldId) (fold : Fold) (ep : EngineAddr) (engine : Engine),
      st.getFold fid = some fold → fold.engine = none → st.getEngine ep = some engine →
      alookup engine.values fold.gvalue = none → fid ∉ st.typeNew →
      ensureEngine st (some ep) fid =
        .error "value had no engine, but was not created by a registered type; who created the value?") ∧
    (∀ (st : BridgeState) (fid : FoldId) (fold : Fold) (ep : EngineAddr) (engine : Engine),
      st.getFold fid = some fold → fold.engine = none → st.getEngine ep = some engine →
      alookup engine.values fold.gvalue = none →
      fid ∈ st.typeNew → st.typeNew.Nodup →
      fold.prev = none → fold.next = none →
      ∃ st2 : BridgeState, ensureEngine st (some ep) fid = .ok st2 ∧
        fid ∉ st2.typeNew ∧
        st2.getFold fid = some { fold with engine := some ep, initCalls := fold.initCalls + 1 } ∧
        st2.getEngine ep = some { engine with values := aupdate engine.values fold.gvalue fid } ∧
        chainSeg st2 ep fold.gvalue none [fid]) ∧
    (∀ (st : BridgeState) (fid : FoldId) (fold : Fold) (ep : EngineAddr) (engine : Engine)
        (r : FoldId) (rest : List FoldId),
      st.getFold fid = some fold → fold.engine = none → st.getEngine ep = some engine →
      alookup engine.values fold.gvalue = some r →
      chainSeg st ep fold.gvalue none (r :: rest) →
      (r :: rest).Nodup → fid ∉ r :: rest →
      (r :: rest).length ≤ st.folds.length →
      fid ∈ st.typeNew → st.typeNew.Nodup →
      fold.next = none →
      ∃ st2 : BridgeState, ensureEngine st (some ep) fid = .ok st2 ∧
        fid ∉ st2.typeNew ∧
        st2.engines = st.engines ∧
        st2.getFold fid = some { fold with engine := some ep, prev := some ((r :: rest).getLast (List.cons_ne_nil r rest)), initCalls := fold.initCalls + 1 } ∧
        chainSeg st2 ep fold.gvalue none ((r :: rest) ++ [fid])) := by
  refine ⟨?_, ?_, ?_, ?_, ?_, ?_, ?_⟩
  · intro st cv gv
    constructor
    · simp [hookGoValueTypeNew]
    · simp [hookGoValueTypeNew, BridgeState.getFold]
  · intro st enginep fid fold hF hS
    simp [ensureEngine, hF, hS]
  · intro st fid fold hF hE0
    simp [ensureEngine, hF, hE0]
  · intro st fid fold ep hF hE0 hE
    simp [ensureEngine, hF, hE0, hE]
  · intro st fid fold ep engine hF hE0 hE hroot hnot
    simp [ensureEngine, hF, hE0, hE, hroot, hnot]
  · intro st fid fold ep engine hF hE0 hE hroot hmem htnodup hpn hnn
    refine ⟨BridgeState.setFold { ({ st.setFold fid { fold with engine := some ep } with engines := aupdate st.engines ep { engine with values := aupdate engine.values fold.gvalue fid } } : BridgeState) with typeNew := lerase st.typeNew fid } fid { fold with engine := some ep, initCalls := fold.initCalls + 1 }, ?_, ?_, ?_, ?_, ?_⟩
    · simp only [ensureEngine, hF, hE0, hE, hroot, hmem, BridgeState.setEngineValues,
        Option.isSome_none, Bool.false_eq_true, if_false, getEngine_setFold,
        typeNew_setFold, typeNew_setEngineValues, engines_setFold, if_true, reduceIte]
      simp [BridgeState.getFold, BridgeState.setFold]
    · simpa using not_mem_lerase htnodup
    · simp [BridgeState.getFold, BridgeState.setFold]
    · simp [BridgeState.getEngine, BridgeState.setFold]
    · exact ⟨{ fold with engine := some ep, initCalls := fold.initCalls + 1 },
        by simp [BridgeState.getFold, BridgeState.setFold], rfl, rfl, hpn, hnn, trivial⟩
  · intro st fid fold ep engine r rest hF hE0 hE hroot hch hnodup hnotin hlen hmem htnodup hnn
    have hch1 : chainSeg (st.setFold fid { fold with engine := some ep }) ep fold.gvalue
        none (r :: rest) :=
      chainSeg_setFold_notmem st ep fold.gvalue fid _ (r :: rest) none hch hnotin
    have hlen1 : (r :: rest).length ≤
        (st.setFold fid { fold with engine := some ep }).folds.length := by
      refine le_trans hlen ?_
      simp only [BridgeState.setFold]
      exact length_le_length_aupdate _ _ _
    have hct : chainTail (st.setFold fid { fold with engine := some ep })
        (st.setFold fid { fold with engine := some ep }).folds.length r =
        some ((r :: rest).getLast (List.cons_ne_nil r rest)) :=
      chainTail_of_chainSeg _ ep fold.gvalue rest r none _ hch1 hlen1
    obtain ⟨tl1, hgt1, htn1, htgv1, hte1⟩ :=
      chainSeg_last_record (st.setFold fid { fold with engine := some ep })
        ep fold.gvalue rest r none hch1
    have htfid : (r :: rest).getLast (List.cons_ne_nil r rest) ≠ fid := by
      intro hh
      exact hnotin (hh ▸ List.getLast_mem (List.cons_ne_nil r rest))
    have hgt0 : st.getFold ((r :: rest).getLast (List.cons_ne_nil r rest)) = some tl1 := by
      rw [← hgt1]
      exact (getFold_setFold_ne st _ htfid).symm
    refine ⟨BridgeState.setFold { (((st.setFold fid { fold with engine := some ep }).setFold ((r :: rest).getLast (List.cons_ne_nil r rest)) { tl1 with next := some fid }).setFold fid { fold with engine := some ep, prev := some ((r :: rest).getLast (List.cons_ne_nil r rest)) } : BridgeState) with typeNew := lerase st.typeNew fid } fid { fold with engine := some ep, prev := some ((r :: rest).getLast (List.cons_ne_nil r rest)), initCalls := fold.initCalls + 1 }, ?_, ?_, ?_, ?_, ?_⟩
    · simp only [ensureEngine, hF, hE0, hE, hroot, hct, hgt1, hmem,
        Option.isSome_none, Bool.false_eq_true, if_false, getEngine_setFold,
        typeNew_setFold, typeNew_setEngineValues, engines_setFold, if_true, reduceIte]
      simp [BridgeState.getFold, BridgeState.setFold]
    · simpa using not_mem_lerase htnodup
    · simp
    · simp [BridgeState.getFold, BridgeState.setFold]
    · refine chainSeg_snoc st _ ep fold.gvalue fid { fold with engine := some ep, prev := some ((r :: rest).getLast (List.cons_ne_nil r rest)), initCalls := fold.initCalls + 1 } rest r none hch hnodup hnotin ?_ ?_ ?_ rfl rfl rfl hnn
      · intro g hgmem hgne
        have hgfid : g ≠ fid := fun hh => hnotin (hh ▸ hgmem)
        simp only [BridgeState.getFold, BridgeState.setFold]
        rw [alookup_aupdate_ne _ _ hgfid, alookup_aupdate_ne _ _ hgfid,
          alookup_aupdate_ne _ _ hgne, alookup_aupdate_ne _ _ hgfid]
      · intro tl htl2
        have : tl = tl1 := by
          rw [hgt0] at htl2
          exact (Option.some.inj htl2).symm
        subst this
        simp only [BridgeState.getFold, BridgeState.setFold]
        rw [alookup_aupdate_ne _ _ htfid, alookup_aupdate_ne _ _ htfid]
        exact alookup_aupdate_self _ _ _
      · simp [BridgeState.getFold, BridgeState.setFold]

end QmlBridge

namespace QmlBridge

/-- C3 witness: the seven resolution facts instantiated on concrete
states — creation into the pending set, the no-op on a resolved fold, the
three fatal cases, a first resolve becoming the chain root, and a first
resolve appended after an existing alias. -/
theorem pending_resolution_witness :
    (0 ∈ (hookGoValueTypeNew (BridgeState.mk [] [] [] 0 0) 5 (GoValue.mk 9 false false)).2.typeNew ∧
      (hookGoValueTypeNew (BridgeState.mk [] [] [] 0 0) 5 (GoValue.mk 9 false false)).2.getFold 0 =
        some (Fold.mk none (GoValue.mk 9 false false) 5 valueOwner.jsOwner none none 0 true)) ∧
    (ensureEngine (BridgeState.mk [(1, Engine.mk 1 [] false)] [(0, Fold.mk (some 1) (GoValue.mk 9 false false) 5 valueOwner.jsOwner none none 1 true)] [] 1 0) (some 1) 0 =
      .ok (BridgeState.mk [(1, Engine.mk 1 [] false)] [(0, Fold.mk (some 1) (GoValue.mk 9 false false) 5 valueOwner.jsOwner none none 1 true)] [] 1 0)) ∧
    (ensureEngine (BridgeState.mk [] [(0, Fold.mk none (GoValue.mk 9 false false) 5 valueOwner.jsOwner none none 0 true)] [0] 1 0) none 0 =
      .error "accessing value without an engine pointer; who created the value?") ∧
    (ensureEngine (BridgeState.mk [] [(0, Fold.mk none (GoValue.mk 9 false false) 5 valueOwner.jsOwner none none 0 true)] [0] 1 0) (some 5) 0 =
      .error "unknown engine pointer; who created the engine?") ∧
    (ensureEngine (BridgeState.mk [(1, Engine.mk 1 [] false)] [(0, Fold.mk none (GoValue.mk 9 false false) 5 valueOwner.jsOwner none none 0 true)] [] 1 0) (some 1) 0 =
      .error "value had no engine, but was not created by a registered type; who created the value?") ∧
    (∃ st2 : BridgeState,
      ensureEngine (BridgeState.mk [(1, Engine.mk 1 [] false)] [(0, Fold.mk none (GoValue.mk 9 false false) 5 valueOwner.jsOwner none none 0 true)] [0] 1 0) (some 1) 0 = .ok st2 ∧
      0 ∉ st2.typeNew ∧
      st2.getFold 0 = some (Fold.mk (some 1) (GoValue.mk 9 false false) 5 valueOwner.jsOwner none none 1 true) ∧
      st2.getEngine 1 = some (Engine.mk 1 (aupdate [] (GoValue.mk 9 false false) 0) false) ∧
      chainSeg st2 1 (GoValue.mk 9 false false) none [0]) ∧
    (∃ st2 : BridgeState,
      ensureEngine (BridgeState.mk [(1, Engine.mk 1 [(GoValue.mk 9 false false, 1)] false)] [(1, Fold.mk (some 1) (GoValue.mk 9 false false) 7 valueOwner.jsOwner none none 0 false), (0, Fold.mk none (GoValue.mk 9 false false) 5 valueOwner.jsOwner none none 0 true)] [0] 2 0) (some 1) 0 = .ok st2 ∧
      0 ∉ st2.typeNew ∧
      st2.engines = [(1, Engine.mk 1 [(GoValue.mk 9 false false, 1)] false)] ∧
      st2.getFold 0 = some (Fold.mk (some 1) (GoValue.mk 9 false false) 5 valueOwner.jsOwner (some 1) none 1 true) ∧
      chainSeg st2 1 (GoValue.mk 9 false false) none ([1] ++ [0])) := by
  refine ⟨?_, ?_, ?_, ?_, ?_, ?_, ?_⟩
  · exact pending_resolution.1 (BridgeState.mk [] [] [] 0 0) 5 (GoValue.mk 9 false false)
  · exact pending_resolution.2.1 _ (some 1) 0 (Fold.mk (some 1) (GoValue.mk 9 false false) 5 valueOwner.jsOwner none none 1 true) rfl rfl
  · exact pending_resolution.2.2.1 _ 0 (Fold.mk none (GoValue.mk 9 false false) 5 valueOwner.jsOwner none none 0 true) rfl rfl
  · exact pending_resolution.2.2.2.1 _ 0 (Fold.mk none (GoValue.mk 9 false false) 5 valueOwner.jsOwner none none 0 true) 5 rfl rfl rfl
  · exact pending_resolution.2.2.2.2.1 _ 0 (Fold.mk none (GoValue.mk 9 false false) 5 valueOwner.jsOwner none none 0 true) 1 (Engine.mk 1 [] false) rfl rfl rfl rfl (by decide)
  · exact pending_resolution.2.2.2.2.2.1 _ 0 (Fold.mk none (GoValue.mk 9 false false) 5 valueOwner.jsOwner none none 0 true) 1 (Engine.mk 1 [] false) rfl rfl rfl rfl (by decide) (by decide) rfl rfl
  · exact pending_resolution.2.2.2.2.2.2 _ 0 (Fold.mk none (GoValue.mk 9 false false) 5 valueOwner.jsOwner none none 0 true) 1 (Engine.mk 1 [(GoValue.mk 9 false false, 1)] false) 1 [] rfl rfl rfl rfl ⟨Fold.mk (some 1) (GoValue.mk 9 false false) 7 valueOwner.jsOwner none none 0 false, rfl, rfl, rfl, rfl, rfl, trivial⟩ (by decide) (by decide) (by decide) (by decide) (by decide) rfl

end QmlBridge
